import Mathlib

/-!
Shallow embedding of the `saj_portal_scraper` core
(`utils.py`: `sum_numbers_from_string`, `is_inactive`, `aggregate_plant_data`,
`calculate_peak_power`; `mqtt_utils.py`: `publish_discovery`).

Modelling conventions:
* Python `float` values are modelled as exact rationals (`ℚ`); `round(x, n)`
  is modelled as round-half-to-even on the `n`-th decimal, mirroring Python's
  `round` tie-breaking.
* Python `None` is `Option.none`; a Python `str`-or-`None` value is
  `Option String`.
* Wall-clock reads (`datetime.now()`) are passed as explicit parameters:
  dates as `Nat`, times-of-day as seconds-of-day (`Nat`).
* `datetime` values obtained from `strptime` are encoded as a single `Nat`
  key that is strictly monotone in the lexicographic component order, so
  Python's `datetime` comparison becomes `Nat` comparison.
-/

attribute [local semireducible] Rat.add Rat.mul Rat.inv Rat.sub Rat.ofScientific

/-- The set of characters stripped by Python's `str.strip()` (the ASCII
whitespace characters plus the no-break space, which covers every character
the scraper's inputs can contain). -/
def pyWs (c : Char) : Bool :=
  c = ' ' || c = '\t' || c = '\n' || c = '\r' || c = '\x0b' || c = '\x0c' || c = '\u00A0'

/-- Python `str.strip()` on a character list. -/
def pyStripL (l : List Char) : List Char :=
  ((l.dropWhile pyWs).reverse.dropWhile pyWs).reverse

/-- `utils.py` line 42: scanner for `re.findall(r"[-+]?\d+(?:\.\d+)?", ln)`.
Scans left to right; at each position tries to match an optional sign,
a greedy run of digits and an optional `.`-plus-digits fraction; on a match
the scan resumes after the matched token, otherwise it advances one
character.  `fuel` only bounds the recursion; `findNums` supplies the input
length, which every scan step strictly decreases below. -/
def findNumsGo : Nat → List Char → List (List Char)
  | 0, _ => []
  | _ + 1, [] => []
  | fuel + 1, c :: cs =>
    if c.isDigit then
      let ds := (c :: cs).takeWhile Char.isDigit
      let rest := (c :: cs).dropWhile Char.isDigit
      match rest with
      | '.' :: r2 =>
        let fs := r2.takeWhile Char.isDigit
        if fs = [] then ds :: findNumsGo fuel rest
        else (ds ++ '.' :: fs) :: findNumsGo fuel (r2.dropWhile Char.isDigit)
      | _ => ds :: findNumsGo fuel rest
    else if c = '-' || c = '+' then
      match cs with
      | d :: _ =>
        if d.isDigit then
          let ds := cs.takeWhile Char.isDigit
          let rest := cs.dropWhile Char.isDigit
          match rest with
          | '.' :: r2 =>
            let fs := r2.takeWhile Char.isDigit
            if fs = [] then (c :: ds) :: findNumsGo fuel rest
            else ((c :: ds) ++ '.' :: fs) :: findNumsGo fuel (r2.dropWhile Char.isDigit)
          | _ => (c :: ds) :: findNumsGo fuel rest
        else findNumsGo fuel cs
      | [] => []
    else findNumsGo fuel cs

/-- All regex tokens `[-+]?\d+(?:\.\d+)?` of a line, leftmost first. -/
def findNums (l : List Char) : List (List Char) :=
  findNumsGo l.length l

/-- Numeric value of the digit character `c`. -/
def dval (c : Char) : Nat := c.toNat - 48

/-- Value of a digit run read in base 10. -/
def digitsToNat (l : List Char) : Nat :=
  l.foldl (fun n c => n * 10 + dval c) 0

/-- Python `float(p)` on a token produced by the extraction pattern
(optional sign, integer digits, optional fraction), as an exact rational. -/
def parseTok (t : List Char) : ℚ :=
  let sgn : ℚ := match t with
    | '-' :: _ => -1
    | _ => 1
  let t' : List Char := match t with
    | '-' :: r => r
    | '+' :: r => r
    | _ => t
  let ds := t'.takeWhile Char.isDigit
  let rest := t'.dropWhile Char.isDigit
  match rest with
  | '.' :: fs => sgn * ((digitsToNat ds : ℚ) + (digitsToNat fs : ℚ) / (10 ^ fs.length))
  | _ => sgn * (digitsToNat ds : ℚ)

/-- `utils.py` lines 18-50, `sum_numbers_from_string`: strip; return `0.0`
for absent/empty input; normalize no-break spaces to spaces and commas to
periods; split on runs of CR/LF, strip each line and drop empty ones;
extract every `[-+]?\d+(?:\.\d+)?` token per line and sum all of them. -/
def sum_numbers_from_string (s : Option String) : ℚ :=
  match s with
  | none => 0
  | some raw =>
    let t := pyStripL raw.toList
    if t = [] then 0
    else
      let u := (t.map fun c => if c = '\u00A0' then ' ' else c).map
        fun c => if c = ',' then '.' else c
      let lines := ((u.splitOnP fun c => c = '\r' || c = '\n').map pyStripL).filter
        fun ln => ln ≠ []
      lines.foldl (fun tot ln => (findNums ln).foldl (fun t tk => t + parseTok tk) tot) 0

/-- Hour field of `strptime`'s `%H` directive (regex `2[0-3]|[01]\d|\d`),
followed by the remaining input.  The two-digit alternatives are tried
first, exactly as the regex alternation does; because every following
format character is a non-digit literal, the deterministic choice agrees
with the regex's backtracking. -/
def pHour : List Char → Option (Nat × List Char)
  | a :: b :: rest =>
    if a = '2' && b.isDigit && dval b ≤ 3 then some (20 + dval b, rest)
    else if (a = '0' || a = '1') && b.isDigit then some (dval a * 10 + dval b, rest)
    else if a.isDigit then some (dval a, b :: rest)
    else none
  | [a] => if a.isDigit then some (dval a, []) else none
  | [] => none

/-- Minute field of `strptime`'s `%M` directive (regex `[0-5]\d|\d`). -/
def pMin : List Char → Option (Nat × List Char)
  | a :: b :: rest =>
    if a.isDigit && dval a ≤ 5 && b.isDigit then some (dval a * 10 + dval b, rest)
    else if a.isDigit then some (dval a, b :: rest)
    else none
  | [a] => if a.isDigit then some (dval a, []) else none
  | [] => none

/-- `datetime.strptime(s, "%H:%M").time()` as seconds of day: `%H`, a
literal colon, `%M`, and nothing left over (`strptime` raises on trailing
characters). -/
def parseHM (s : String) : Option Nat :=
  match pHour s.toList with
  | some (h, ':' :: r) =>
    match pMin r with
    | some (m, []) => some (h * 3600 + m * 60)
    | _ => none
  | _ => none

/-- `utils.py` lines 53-95, `is_inactive`: the configuration lookups with
their `const.py` defaults are modelled by passing the effective values
(`inactivity_enabled`, the two time strings) directly; `datetime.now().time()`
is the explicit `now` parameter in seconds of day.  Disabled → `False`;
either time string failing to parse as `"%H:%M"` → `False` (fail open);
overnight window (`start > end`): inactive iff `now ≥ start` or
`now < end`; same-day window: inactive iff `start ≤ now < end`.
Python compares `time` objects; second-of-day comparison agrees with it
because the parsed bounds have zero seconds/microseconds. -/
def is_inactive (inactivity_enabled : Bool) (start_time_str end_time_str : String)
    (now : Nat) : Bool :=
  if !inactivity_enabled then false
  else
    match parseHM start_time_str, parseHM end_time_str with
    | some start_time, some end_time =>
      if start_time > end_time then
        if now ≥ start_time || now < end_time then true else false
      else
        if start_time ≤ now && now < end_time then true else false
    | _, _ => false

/-- Python `round(x)` to an integer: round half to even. -/
def roundHalfEven (x : ℚ) : ℤ :=
  let f := ⌊x⌋
  let r := x - f
  if r < 1/2 then f
  else if 1/2 < r then f + 1
  else if f % 2 = 0 then f else f + 1

/-- Python `round(x, n)`. -/
def pyRound (x : ℚ) (n : ℕ) : ℚ :=
  (roundHalfEven (x * 10 ^ n) : ℚ) / 10 ^ n

/-- `utils.py` lines 219-253, `calculate_peak_power`.  `datetime.now().date()`
is the explicit `current_date` parameter (dates as `Nat`).  First the reset
transition: a `None` or stale reset date zeroes the peak, stamps today and
marks the state changed; then the update transition: a present current
power strictly above the (possibly just reset) peak replaces it, rounded
to 3 decimals, and marks the state changed. -/
def calculate_peak_power (current_power : Option ℚ) (previous_peak : ℚ)
    (last_reset_date : Option Nat) (current_date : Nat) : ℚ × Option Nat × Bool :=
  let st :=
    if last_reset_date = none || last_reset_date ≠ some current_date then
      ((0 : ℚ), some current_date, true)
    else (previous_peak, last_reset_date, false)
  match current_power with
  | some cp => if cp > st.1 then (pyRound cp 3, st.2.1, true) else st
  | none => st

/-- `strptime`'s `%Y` directive: exactly four digits. -/
def pYear : List Char → Option (Nat × List Char)
  | a :: b :: c :: d :: rest =>
    if a.isDigit && b.isDigit && c.isDigit && d.isDigit then
      some (((dval a * 10 + dval b) * 10 + dval c) * 10 + dval d, rest)
    else none
  | _ => none

/-- `strptime`'s `%m` directive (regex `1[0-2]|0[1-9]|[1-9]`). -/
def pMonth : List Char → Option (Nat × List Char)
  | a :: b :: rest =>
    if a = '1' && b.isDigit && dval b ≤ 2 then some (10 + dval b, rest)
    else if a = '0' && b.isDigit && 1 ≤ dval b then some (dval b, rest)
    else if a.isDigit && 1 ≤ dval a then some (dval a, b :: rest)
    else none
  | [a] => if a.isDigit && 1 ≤ dval a then some (dval a, []) else none
  | [] => none

/-- `strptime`'s `%d` directive (regex `3[01]|[12]\d|0[1-9]|[1-9]`). -/
def pDay : List Char → Option (Nat × List Char)
  | a :: b :: rest =>
    if a = '3' && b.isDigit && dval b ≤ 1 then some (30 + dval b, rest)
    else if (a = '1' || a = '2') && b.isDigit then some (dval a * 10 + dval b, rest)
    else if a = '0' && b.isDigit && 1 ≤ dval b then some (dval b, rest)
    else if a.isDigit && 1 ≤ dval a then some (dval a, b :: rest)
    else none
  | [a] => if a.isDigit && 1 ≤ dval a then some (dval a, []) else none
  | [] => none

/-- `strptime`'s `%S` directive (regex `6[01]|[0-5]\d|\d`; the leap-second
values 60 and 61 pass the regex but are rejected by the `datetime`
constructor, handled in `parseTs`). -/
def pSec : List Char → Option (Nat × List Char)
  | a :: b :: rest =>
    if a = '6' && b.isDigit && dval b ≤ 1 then some (60 + dval b, rest)
    else if a.isDigit && dval a ≤ 5 && b.isDigit then some (dval a * 10 + dval b, rest)
    else if a.isDigit then some (dval a, b :: rest)
    else none
  | [a] => if a.isDigit then some (dval a, []) else none
  | [] => none

/-- Length of a month in the proleptic Gregorian calendar, as validated by
the `datetime` constructor. -/
def daysInMonth (y m : Nat) : Nat :=
  if m = 2 then
    if y % 4 = 0 && (y % 100 ≠ 0 || y % 400 = 0) then 29 else 28
  else if m = 4 || m = 6 || m = 9 || m = 11 then 30
  else 31

/-- `utils.py` line 166: `datetime.strptime(value_str, "%Y-%m-%dT%H:%M:%SZ")`,
returning the parsed datetime as a `Nat` key strictly monotone in the
lexicographic order of `(year, month, day, hour, minute, second)` — the
order `datetime` comparison uses.  Literal characters match
case-insensitively (`strptime` compiles its regex with `IGNORECASE`), the
whole string must be consumed, and the `datetime` constructor's range
checks reject year 0, out-of-range days and leap seconds. -/
def parseTs (s : String) : Option Nat :=
  match pYear s.toList with
  | some (y, '-' :: r1) =>
    match pMonth r1 with
    | some (mo, '-' :: r2) =>
      match pDay r2 with
      | some (d, t :: r3) =>
        if t = 'T' || t = 't' then
          match pHour r3 with
          | some (h, ':' :: r4) =>
            match pMin r4 with
            | some (mi, ':' :: r5) =>
              match pSec r5 with
              | some (sec, z :: r6) =>
                if (z = 'Z' || z = 'z') && r6 = [] then
                  if 1 ≤ y && d ≤ daysInMonth y mo && sec ≤ 59 then
                    some (((((y * 13 + mo) * 32 + d) * 24 + h) * 60 + mi) * 60 + sec)
                  else none
                else none
              | _ => none
            | _ => none
          | _ => none
        else none
      | _ => none
    | _ => none
  | _ => none

/-- One step of the latest-timestamp tracking of `utils.py` lines 160-193
for a single field: `cmp` is the `compare_*_time_obj` slot, `lat` the
`latest_*_time_str` slot, `v` the (truthy) incoming value.  A parseable
value wins when the comparison slot is empty or strictly older; an
unparseable value only fills an empty string slot. -/
def tsUpdate (cmp : Option Nat) (lat : Option String) (v : String) :
    Option Nat × Option String :=
  match parseTs v with
  | some k =>
    match cmp with
    | none => (some k, some v)
    | some k0 => if k > k0 then (some k, some v) else (cmp, lat)
  | none =>
    match lat with
    | none => (cmp, some v)
    | some _ => (cmp, lat)

/-- The running accumulator of `aggregate_plant_data` (`utils.py`
lines 104-113): the six numeric sums and, per timestamp field, the kept
string and the parsed comparison value. -/
structure AggState where
  power : ℚ
  eToday : ℚ
  eMonth : ℚ
  eYear : ℚ
  eTotal : ℚ
  panel : ℚ
  updCmp : Option Nat
  updStr : Option String
  srvCmp : Option Nat
  srvStr : Option String
deriving DecidableEq

/-- The accumulator before any device is processed. -/
def initAgg : AggState :=
  ⟨0, 0, 0, 0, 0, 0, none, none, none, none⟩

/-- `utils.py` lines 124-158: does the attribute feed one of the numeric
sums? -/
def summableAttr (a : String) : Bool :=
  a = "Power" || a = "Energy_Today" || a = "Energy_This_Month" ||
    a = "Energy_This_Year" || a = "Energy_Total" ||
    ("_Panel_Power".toList.isSuffixOf a.toList)

/-- The numeric-summing half of the per-attribute loop body (`utils.py`
lines 124-158): a non-`None` value of a summable attribute is parsed with
`sum_numbers_from_string` and added to the matching running total (the
`elif` chain).  `sum_numbers_from_string` never raises, so the
`ValueError/TypeError` handler is dead code. -/
def sumStep (st : AggState) (attr : String) (val : Option String) : AggState :=
  match val with
  | none => st
  | some s =>
    if summableAttr attr then
      let v := sum_numbers_from_string (some s)
      if attr = "Power" then { st with power := st.power + v }
      else if attr = "Energy_Today" then { st with eToday := st.eToday + v }
      else if attr = "Energy_This_Month" then { st with eMonth := st.eMonth + v }
      else if attr = "Energy_This_Year" then { st with eYear := st.eYear + v }
      else if attr = "Energy_Total" then { st with eTotal := st.eTotal + v }
      else if "_Panel_Power".toList.isSuffixOf attr.toList then
        { st with panel := st.panel + v }
      else st
    else st

/-- The whole per-attribute loop body (`utils.py` lines 123-193): the
numeric-summing block followed by the latest-timestamp block (which runs
only for a truthy value of `Update_time` or `Server_Time`). -/
def attrStep (st : AggState) (attr : String) (val : Option String) : AggState :=
  let st1 := sumStep st attr val
  if attr = "Update_time" then
    match val with
    | some s =>
      if s ≠ "" then
        let p := tsUpdate st1.updCmp st1.updStr s
        { st1 with updCmp := p.1, updStr := p.2 }
      else st1
    | none => st1
  else if attr = "Server_Time" then
    match val with
    | some s =>
      if s ≠ "" then
        let p := tsUpdate st1.srvCmp st1.srvStr s
        { st1 with srvCmp := p.1, srvStr := p.2 }
      else st1
    | none => st1
  else st1

/-- `utils.py` lines 115-118: a device whose reading is `None` (or not a
mapping) is skipped; otherwise its attributes are folded in insertion
order. -/
def deviceStep (st : AggState) (row : Option (List (String × Option String))) :
    AggState :=
  match row with
  | none => st
  | some r => r.foldl (fun s p => attrStep s p.1 p.2) st

/-- One output field of the plant summary: a numeric sum or a timestamp
string. -/
inductive AggValue
  | num (q : ℚ)
  | ts (s : Option String)
deriving DecidableEq

/-- `utils.py` lines 204-214: the final summary built from the accumulator
(power sums divided by 1000 and rounded to 3 decimals, energies rounded to
2 decimals). -/
def aggRender (st : AggState) : List (String × AggValue) :=
  [("Power", AggValue.num (pyRound (st.power / 1000) 3)),
   ("Energy_Today", AggValue.num (pyRound st.eToday 2)),
   ("Energy_This_Month", AggValue.num (pyRound st.eMonth 2)),
   ("Energy_This_Year", AggValue.num (pyRound st.eYear 2)),
   ("Energy_Total", AggValue.num (pyRound st.eTotal 2)),
   ("Panel_Power", AggValue.num (pyRound (st.panel / 1000) 3)),
   ("Update_time", AggValue.ts st.updStr),
   ("Server_Time", AggValue.ts st.srvStr)]

/-- `utils.py` lines 98-216, `aggregate_plant_data`.  A falsy input
(`None` or the empty mapping) short-circuits to the empty mapping;
otherwise every device reading is folded into the accumulator and the
eight fixed summary fields are rendered.  A reading is a mapping from
attribute name to optional string value; dictionaries are modelled as
association lists in insertion order. -/
def aggregate_plant_data
    (fetched_data : Option (List (String × Option (List (String × Option String))))) :
    List (String × AggValue) :=
  match fetched_data with
  | none => []
  | some [] => []
  | some fd => aggRender (fd.foldl (fun st p => deviceStep st p.2) initAgg)

/-- `mqtt_utils.py` lines 140, 218: attribute slugification
(`lower`, then the single-character replacements of space, dash and dot by
underscore). -/
def slugify (a : String) : String :=
  String.mk (((a.toList.map Char.toLower).map fun c => if c = ' ' then '_' else c).map
    fun c => if c = '-' then '_' else if c = '.' then '_' else c)

/-- `mqtt_utils.py` lines 152-162: strip a known panel suffix down to the
generic base attribute used for the metadata lookups. -/
def panelBase (a : String) : String :=
  if "_Panel_Voltage".toList.isSuffixOf a.toList then "Panel_Voltage"
  else if "_Panel_Current".toList.isSuffixOf a.toList then "Panel_Current"
  else if "_Panel_Power".toList.isSuffixOf a.toList then "Panel_Power"
  else a

/-- `mqtt_utils.py` lines 122-212: the unique ids of the per-device sensors
`publish_discovery` tries to announce, in iteration order.  `U` and `D` are
the `UNIT_MAPPING` / `DEVICE_CLASS_MAPPING` tables from `const.py`
(external to the two modelled modules, so passed as parameters); a device
reading here is its serial paired with its attribute names (the attribute
values play no role before the publish itself).  `Alias` is metadata, and
an attribute whose base name has neither unit nor device class is skipped
unless it is a timestamp field. -/
def deviceCands (U D : String → Option String)
    (device_data : List (String × List String)) : List String :=
  device_data.foldr (fun p acc =>
    (p.2.filterMap fun attr =>
      if attr = "Alias" then none
      else if (U (panelBase attr)).isNone && (D (panelBase attr)).isNone &&
          attr ≠ "Update_time" && attr ≠ "Server_Time" then none
      else some ("saj_" ++ p.1 ++ "_" ++ slugify attr)) ++ acc) []

/-- `mqtt_utils.py` lines 214-259: the unique ids of the aggregated-plant
sensors, in iteration order.  `Power` and `Panel_Power` get a forced `kW`
unit before the skip check, so they are always eligible. -/
def plantCands (U D : String → Option String) (plant_data : List String) :
    List String :=
  plant_data.filterMap fun attr =>
    let unit := if attr = "Power" || attr = "Panel_Power" then some "kW" else U attr
    if unit.isNone && (D attr).isNone && attr ≠ "Update_time" && attr ≠ "Server_Time"
    then none
    else some ("saj_plant_" ++ slugify attr)

/-- All unique ids one `publish_discovery` call iterates over: per-device
sensors, then plant sensors, then the fixed peak-power sensor
(`mqtt_utils.py` line 264). -/
def discoveryCandidates (U D : String → Option String)
    (device_data : List (String × List String)) (plant_data : List String) :
    List String :=
  deviceCands U D device_data ++ plantCands U D plant_data ++
    ["saj_plant_peak_power_today"]

/-- The publish loop shared by all three discovery sections
(`mqtt_utils.py` lines 143-144/206-212, 221/254-259, 265/285-290): an id
already in `_DISCOVERED_ENTITIES` is skipped; otherwise `client.publish`
is attempted (its success modelled by the oracle `pubOk`); on success the
id is added to the set, on failure it is only logged; either way the loop
continues.  Returns the final discovered set, the successfully published
ids and the attempted ids, each in order. -/
def discoveryRun (pubOk : String → Bool) :
    List String → List String → List String × List String × List String
  | [], disc => (disc, [], [])
  | c :: rest, disc =>
    if c ∈ disc then discoveryRun pubOk rest disc
    else if pubOk c then
      let r := discoveryRun pubOk rest (disc ++ [c])
      (r.1, c :: r.2.1, c :: r.2.2)
    else
      let r := discoveryRun pubOk rest disc
      (r.1, r.2.1, c :: r.2.2)

/-- `mqtt_utils.py` lines 104-290, `publish_discovery`.  A disconnected
client (line 106) makes the whole call a no-op; otherwise the candidate
ids are run through the discover-and-publish loop against the module-level
`_DISCOVERED_ENTITIES` set (`disc`), whose updated value is returned. -/
def publish_discovery (connected : Bool) (U D : String → Option String)
    (device_data : List (String × List String)) (plant_data : List String)
    (disc : List String) (pubOk : String → Bool) :
    List String × List String × List String :=
  if connected then
    discoveryRun pubOk (discoveryCandidates U D device_data plant_data) disc
  else (disc, [], [])

/-! ## Claim theorems -/

/-- C2: `aggregate_plant_data` applied to an absent (`None`) or empty input
mapping returns an empty mapping (no keys at all). -/
theorem aggregate_plant_data_absent_or_empty :
    aggregate_plant_data none = [] ∧ aggregate_plant_data (some []) = [] :=
  ⟨rfl, rfl⟩

/-- C10 (implicit): for every input, the reset date `calculate_peak_power`
returns is exactly today's date — never absent, never another date. -/
theorem calculate_peak_power_reset_date_today
    (current_power : Option ℚ) (previous_peak : ℚ)
    (last_reset_date : Option Nat) (current_date : Nat) :
    (calculate_peak_power current_power previous_peak last_reset_date
      current_date).2.1 = some current_date := by
  rcases last_reset_date with _ | d
  · simp only [calculate_peak_power]
    cases current_power <;> (simp; try (split <;> rfl))
  · by_cases hd : d = current_date
    · subst hd
      simp only [calculate_peak_power]
      cases current_power <;> (simp; try (split <;> rfl))
    · simp only [calculate_peak_power]
      cases current_power <;> (simp [hd]; try (split <;> rfl))

/-- C3: the three spec examples of `calculate_peak_power`, with today's
date an explicit parameter: update only (`5 > 3`), no change (`2 ≤ 3`),
and reset-then-update for a stale reset date (`1 > 0` after the reset). -/
theorem calculate_peak_power_examples (today : Nat) :
    calculate_peak_power (some 5) 3 (some today) today = (5, some today, true) ∧
    calculate_peak_power (some 2) 3 (some today) today = (3, some today, false) ∧
    ∀ yesterday : Nat, yesterday ≠ today →
      calculate_peak_power (some 1) 9 (some yesterday) today =
        (1, some today, true) := by
  have h5 : pyRound 5 3 = 5 := by decide
  have h1 : pyRound 1 3 = 1 := by decide
  refine ⟨?_, ?_, ?_⟩
  · simp [calculate_peak_power, h5]
    norm_num
  · simp [calculate_peak_power]
    norm_num
  · intro yesterday hne
    simp [calculate_peak_power, hne, h1]

/-- C3 witness: the example equations at concrete dates. -/
theorem calculate_peak_power_examples_witness :
    calculate_peak_power (some 5) 3 (some 7) 7 = (5, some 7, true) ∧
    calculate_peak_power (some 1) 9 (some 6) 7 = (1, some 7, true) :=
  ⟨(calculate_peak_power_examples 7).1,
   (calculate_peak_power_examples 7).2.2 6 (by decide)⟩

/-- C7: `sum_numbers_from_string` is total by construction (it is a Lean
function into `ℚ`, and the `float()` conversions it models cannot fail on
the extracted tokens); an absent input or an input that strips to the
empty string yields exactly `0.0`. -/
theorem sum_numbers_from_string_total :
    sum_numbers_from_string none = 0 ∧
    ∀ s : String, pyStripL s.toList = [] → sum_numbers_from_string (some s) = 0 := by
  refine ⟨rfl, fun s h => ?_⟩
  have h' : pyStripL s.data = [] := h
  simp [sum_numbers_from_string, h']

/-- C7 witness: the empty and whitespace-only strings strip to nothing. -/
theorem sum_numbers_from_string_total_witness :
    sum_numbers_from_string (some "") = 0 ∧ sum_numbers_from_string (some " \t ") = 0 :=
  ⟨sum_numbers_from_string_total.2 "" (by decide),
   sum_numbers_from_string_total.2 " \t " (by decide)⟩

/-- C8: token extraction and summation on the two spec examples: the
newline-separated integers sum to `67668.0`, and
`"3.86-0.20-0.00-0.00"` splits into the four signed tokens `3.86`,
`-0.20`, `-0.00`, `-0.00` whose sum is `3.66`. -/
theorem sum_numbers_from_string_examples :
    sum_numbers_from_string (some "22865\n22603\n22200") = 67668 ∧
    sum_numbers_from_string (some "3.86-0.20-0.00-0.00") = 366/100 ∧
    findNums "3.86-0.20-0.00-0.00".toList =
      [['3', '.', '8', '6'], ['-', '0', '.', '2', '0'],
       ['-', '0', '.', '0', '0'], ['-', '0', '.', '0', '0']] ∧
    (findNums "3.86-0.20-0.00-0.00".toList).foldl (fun a t => a + parseTok t) 0 =
      366/100 := by
  refine ⟨by decide, by decide, by decide, by decide⟩

/-- C6: the comma-as-thousands-separator input `"3.563,06"` is misparsed:
after comma→period normalization the token pattern splits `3.563.06` into
the tokens `3.563` and `06`, and the function returns their sum `9.563`,
not the intended single value `3563.06`. -/
theorem sum_numbers_from_string_comma_thousands :
    sum_numbers_from_string (some "3.563,06") = 9563/1000 ∧
    findNums "3.563.06".toList = [['3', '.', '5', '6', '3'], ['0', '6']] ∧
    sum_numbers_from_string (some "3.563,06") =
      (findNums "3.563.06".toList).foldl (fun a t => a + parseTok t) 0 ∧
    (9563/1000 : ℚ) ≠ 356306/100 := by
  refine ⟨by decide, by decide, by decide, by decide⟩

/-- C9: with the current time an explicit parameter, `is_inactive` returns
`false` when the feature is disabled or when either configured time string
fails to parse as `HH:MM` (fail open); otherwise an overnight window
(`start > end`) is active iff `now ≥ start ∨ now < end`, and a same-day
window (`start ≤ end`) is active iff `start ≤ now < end`. -/
theorem is_inactive_spec (enabled : Bool) (s e : String) (now : Nat) :
    (enabled = false → is_inactive enabled s e now = false) ∧
    (parseHM s = none ∨ parseHM e = none → is_inactive enabled s e now = false) ∧
    (∀ st et, parseHM s = some st → parseHM e = some et → enabled = true →
      ((et < st → (is_inactive enabled s e now = true ↔ (st ≤ now ∨ now < et))) ∧
       (st ≤ et → (is_inactive enabled s e now = true ↔ (st ≤ now ∧ now < et))))) := by
  refine ⟨?_, ?_, ?_⟩
  · rintro rfl
    rfl
  · intro h
    cases enabled
    · rfl
    · rcases h with h | h
      · simp [is_inactive, h]
      · rcases hs : parseHM s with _ | st
        · simp [is_inactive, hs]
        · simp [is_inactive, hs, h]
  · intro st et hs he henb
    subst henb
    constructor
    · intro hlt
      simp [is_inactive, hs, he, hlt, gt_iff_lt, or_comm]
    · intro hle
      have : ¬ (st > et) := not_lt.mpr hle
      simp [is_inactive, hs, he, this]

/-- C9 witness: an overnight window at 22:00, the disabled gate, and an
unparseable start time, at concrete inputs. -/
theorem is_inactive_spec_witness :
    is_inactive true "21:00" "05:30" (22 * 3600) = true ∧
    is_inactive false "21:00" "05:30" (22 * 3600) = false ∧
    is_inactive true "25:00" "05:30" 0 = false :=
  ⟨(((is_inactive_spec true "21:00" "05:30" (22 * 3600)).2.2 (21 * 3600)
      (5 * 3600 + 30 * 60) (by decide) (by decide) rfl).1 (by decide)).mpr
      (Or.inl (by decide)),
   (is_inactive_spec false "21:00" "05:30" (22 * 3600)).1 rfl,
   (is_inactive_spec true "25:00" "05:30" 0).2.1 (Or.inl (by decide))⟩

/-- Folding devices whose readings are all absent leaves the accumulator
unchanged (`utils.py` lines 115-118). -/
theorem foldl_deviceStep_all_none
    (fd : List (String × Option (List (String × Option String)))) (st : AggState)
    (h : ∀ p ∈ fd, p.2 = none) :
    fd.foldl (fun s p => deviceStep s p.2) st = st := by
  induction fd generalizing st with
  | nil => rfl
  | cons a l ih =>
    rw [List.foldl_cons, h a (List.mem_cons_self a l)]
    exact ih st fun p hp => h p (List.mem_cons_of_mem a hp)

/-- C1 counterexample: at the empty input mapping the output has no keys
at all, so it does not carry the eight fixed summary keys. -/
theorem aggregate_plant_data_empty_keys_cex :
    (aggregate_plant_data (some [])).map Prod.fst ≠
      ["Power", "Energy_Today", "Energy_This_Month", "Energy_This_Year",
       "Energy_Total", "Panel_Power", "Update_time", "Server_Time"] := by
  decide

/-- C1 (amended): for every NON-empty input mapping the output carries
exactly the eight fixed summary keys in order, and when nothing is
accumulated (every device reading absent) the numeric fields are all zero
and the two timestamp fields are `None`. -/
theorem aggregate_plant_data_eight_keys
    (fd : List (String × Option (List (String × Option String)))) (hne : fd ≠ []) :
    ((aggregate_plant_data (some fd)).map Prod.fst =
      ["Power", "Energy_Today", "Energy_This_Month", "Energy_This_Year",
       "Energy_Total", "Panel_Power", "Update_time", "Server_Time"]) ∧
    ((∀ p ∈ fd, p.2 = none) →
      aggregate_plant_data (some fd) =
        [("Power", AggValue.num 0), ("Energy_Today", AggValue.num 0),
         ("Energy_This_Month", AggValue.num 0), ("Energy_This_Year", AggValue.num 0),
         ("Energy_Total", AggValue.num 0), ("Panel_Power", AggValue.num 0),
         ("Update_time", AggValue.ts none), ("Server_Time", AggValue.ts none)]) := by
  match fd, hne with
  | p :: l, _ =>
    constructor
    · rfl
    · intro h
      show aggRender ((p :: l).foldl (fun st q => deviceStep st q.2) initAgg) = _
      rw [foldl_deviceStep_all_none (p :: l) initAgg h]
      decide

/-- C1 witness: a single device with an absent reading — eight keys, all
numeric fields zero, both timestamps `None`. -/
theorem aggregate_plant_data_eight_keys_witness :
    ((aggregate_plant_data (some [("sn1", none)])).map Prod.fst =
      ["Power", "Energy_Today", "Energy_This_Month", "Energy_This_Year",
       "Energy_Total", "Panel_Power", "Update_time", "Server_Time"]) ∧
    aggregate_plant_data (some [("sn1", none)]) =
      [("Power", AggValue.num 0), ("Energy_Today", AggValue.num 0),
       ("Energy_This_Month", AggValue.num 0), ("Energy_This_Year", AggValue.num 0),
       ("Energy_Total", AggValue.num 0), ("Panel_Power", AggValue.num 0),
       ("Update_time", AggValue.ts none), ("Server_Time", AggValue.ts none)] :=
  ⟨(aggregate_plant_data_eight_keys [("sn1", none)] (by decide)).1,
   (aggregate_plant_data_eight_keys [("sn1", none)] (by decide)).2
     (by intro p hp; simp at hp; simp [hp])⟩

/-- A discovery pass over ids that are all already discovered publishes
nothing, attempts nothing and leaves the set unchanged. -/
theorem discoveryRun_all_discovered (pubOk : String → Bool)
    (ids : List String) :
    ∀ disc : List String, (∀ c ∈ ids, c ∈ disc) →
      discoveryRun pubOk ids disc = (disc, [], []) := by
  induction ids with
  | nil => intro disc _; rfl
  | cons c rest ih =>
    intro disc h
    have hc : c ∈ disc := h c (List.mem_cons_self c rest)
    simp only [discoveryRun, if_pos hc]
    exact ih disc fun x hx => h x (List.mem_cons_of_mem c hx)

/-- With an always-succeeding publish, the final discovered set is the
union of the initial set and the candidate ids. -/
theorem discoveryRun_allOk_set (ids : List String) :
    ∀ (disc : List String) (x : String),
      x ∈ (discoveryRun (fun _ => true) ids disc).1 ↔ x ∈ disc ∨ x ∈ ids := by
  induction ids with
  | nil => intro disc x; simp [discoveryRun]
  | cons c rest ih =>
    intro disc x
    by_cases hc : c ∈ disc
    · simp only [discoveryRun, if_pos hc]
      rw [ih disc x, List.mem_cons]
      constructor
      · rintro (h | h)
        · exact Or.inl h
        · exact Or.inr (Or.inr h)
      · rintro (h | h | h)
        · exact Or.inl h
        · exact Or.inl (h ▸ hc)
        · exact Or.inr h
    · simp only [discoveryRun, if_neg hc, if_pos trivial]
      rw [ih (disc ++ [c]) x]
      simp only [List.mem_append, List.mem_cons, List.not_mem_nil, or_false]
      tauto

/-- With an always-succeeding publish, an id is published iff it is a
candidate that was not yet discovered. -/
theorem discoveryRun_allOk_pub (ids : List String) :
    ∀ (disc : List String) (x : String),
      x ∈ (discoveryRun (fun _ => true) ids disc).2.1 ↔ x ∈ ids ∧ x ∉ disc := by
  induction ids with
  | nil => intro disc x; simp [discoveryRun]
  | cons c rest ih =>
    intro disc x
    by_cases hc : c ∈ disc
    · simp only [discoveryRun, if_pos hc]
      rw [ih disc x, List.mem_cons]
      constructor
      · rintro ⟨h1, h2⟩
        exact ⟨Or.inr h1, h2⟩
      · rintro ⟨h1 | h1, h2⟩
        · exact absurd (h1 ▸ hc) h2
        · exact ⟨h1, h2⟩
    · simp only [discoveryRun, if_neg hc, if_pos trivial, List.mem_cons]
      rw [ih (disc ++ [c]) x]
      constructor
      · rintro (rfl | ⟨h1, h2⟩)
        · exact ⟨Or.inl rfl, hc⟩
        · exact ⟨Or.inr h1, fun hd => h2 (by simp [hd])⟩
      · rintro ⟨h1 | h1, h2⟩
        · exact Or.inl h1
        · by_cases hxc : x = c
          · exact Or.inl hxc
          · exact Or.inr ⟨h1, by simp [hxc, h2]⟩

/-- With an always-succeeding publish, no id is published twice in one
call. -/
theorem discoveryRun_allOk_pub_nodup (ids : List String) :
    ∀ disc : List String, (discoveryRun (fun _ => true) ids disc).2.1.Nodup := by
  induction ids with
  | nil => intro disc; simp [discoveryRun]
  | cons c rest ih =>
    intro disc
    by_cases hc : c ∈ disc
    · simp only [discoveryRun, if_pos hc]
      exact ih disc
    · simp only [discoveryRun, if_pos trivial, if_neg hc]
      refine List.nodup_cons.mpr ⟨fun hmem => ?_, ih (disc ++ [c])⟩
      exact ((discoveryRun_allOk_pub rest (disc ++ [c]) c).mp hmem).2 (by simp)

/-- An id ends up in the discovered set iff it was there before, or its
publish was attempted and succeeded. -/
theorem discoveryRun_set_iff (pubOk : String → Bool) (ids : List String) :
    ∀ (disc : List String) (x : String),
      x ∈ (discoveryRun pubOk ids disc).1 ↔
        x ∈ disc ∨ (x ∈ (discoveryRun pubOk ids disc).2.2 ∧ pubOk x = true) := by
  induction ids with
  | nil => intro disc x; simp [discoveryRun]
  | cons c rest ih =>
    intro disc x
    by_cases hc : c ∈ disc
    · simp only [discoveryRun, if_pos hc]
      exact ih disc x
    · by_cases hok : pubOk c = true
      · simp only [discoveryRun, if_neg hc, if_pos hok, List.mem_cons]
        rw [ih (disc ++ [c]) x, List.mem_append, List.mem_singleton]
        constructor
        · rintro ((h | rfl) | ⟨h1, h2⟩)
          · exact Or.inl h
          · exact Or.inr ⟨Or.inl rfl, hok⟩
          · exact Or.inr ⟨Or.inr h1, h2⟩
        · rintro (h | ⟨rfl | h1, h2⟩)
          · exact Or.inl (Or.inl h)
          · exact Or.inl (Or.inr rfl)
          · exact Or.inr ⟨h1, h2⟩
      · simp only [discoveryRun, if_neg hc, if_neg hok, List.mem_cons]
        rw [ih disc x]
        constructor
        · rintro (h | ⟨h1, h2⟩)
          · exact Or.inl h
          · exact Or.inr ⟨Or.inr h1, h2⟩
        · rintro (h | ⟨rfl | h1, h2⟩)
          · exact Or.inl h
          · exact absurd h2 hok
          · exact Or.inr ⟨h1, h2⟩

/-- The published ids are exactly the attempted ids whose publish
succeeded, in order. -/
theorem discoveryRun_pub_filter (pubOk : String → Bool) (ids : List String) :
    ∀ disc : List String,
      (discoveryRun pubOk ids disc).2.1 =
        (discoveryRun pubOk ids disc).2.2.filter pubOk := by
  induction ids with
  | nil => intro disc; rfl
  | cons c rest ih =>
    intro disc
    by_cases hc : c ∈ disc
    · simp only [discoveryRun, if_pos hc]
      exact ih disc
    · by_cases hok : pubOk c = true
      · simp only [discoveryRun, if_neg hc, if_pos hok]
        rw [List.filter_cons_of_pos hok]
        exact congrArg (c :: ·) (ih (disc ++ [c]))
      · simp only [discoveryRun, if_neg hc, if_neg hok]
        rw [List.filter_cons_of_neg (by simpa using hok)]
        exact ih disc

/-- Every not-yet-discovered candidate is attempted, regardless of which
publishes fail (failures neither enter the set nor abort the loop). -/
theorem discoveryRun_attempted (pubOk : String → Bool) :
    ∀ ids : List String, ids.Nodup → ∀ (disc : List String) (x : String),
      x ∈ ids → x ∉ disc → x ∈ (discoveryRun pubOk ids disc).2.2 := by
  intro ids
  induction ids with
  | nil => intro _ disc x hx _; exact absurd hx (List.not_mem_nil x)
  | cons c rest ih =>
    intro hnd disc x hx hxd
    have hnd' := List.nodup_cons.mp hnd
    rcases List.mem_cons.mp hx with rfl | hxr
    · simp only [discoveryRun, if_neg hxd]
      by_cases hok : pubOk x = true
      · simp only [if_pos hok]
        exact List.mem_cons_self x _
      · simp only [if_neg hok]
        exact List.mem_cons_self x _
    · have hxc : x ≠ c := fun h => hnd'.1 (h ▸ hxr)
      by_cases hcd : c ∈ disc
      · simp only [discoveryRun, if_pos hcd]
        exact ih hnd'.2 disc x hxr hxd
      · by_cases hok : pubOk c = true
        · simp only [discoveryRun, if_neg hcd, if_pos hok]
          refine List.mem_cons_of_mem c (ih hnd'.2 (disc ++ [c]) x hxr ?_)
          simp only [List.mem_append, List.mem_singleton]
          rintro (h | h)
          · exact hxd h
          · exact hxc h
        · simp only [discoveryRun, if_neg hcd, if_neg hok]
          exact List.mem_cons_of_mem c (ih hnd'.2 disc x hxr hxd)

/-- C4: discovery publication is idempotent over the process-lifetime
discovered set.  With every publish succeeding, a second identical call
publishes nothing and the first publishes each eligible not-yet-discovered
unique id exactly once; for an arbitrary publish outcome, an id is in the
final set iff it was already there or its own publish was attempted and
succeeded, the published ids are exactly the attempted ids whose publish
succeeded, and a failing publish neither enters the set nor prevents any
remaining id from being attempted. -/
theorem publish_discovery_idempotent (U D : String → Option String)
    (dd : List (String × List String)) (pd : List String) (d0 : List String) :
    ((publish_discovery true U D dd pd
        (publish_discovery true U D dd pd d0 (fun _ => true)).1 (fun _ => true)).2.1 = [] ∧
     (∀ x, (publish_discovery true U D dd pd d0 (fun _ => true)).2.1.count x ≤ 1) ∧
     (∀ x, x ∈ (publish_discovery true U D dd pd d0 (fun _ => true)).2.1 ↔
        x ∈ discoveryCandidates U D dd pd ∧ x ∉ d0)) ∧
    (∀ pubOk : String → Bool,
      (∀ x, x ∈ (publish_discovery true U D dd pd d0 pubOk).1 ↔
        x ∈ d0 ∨ (x ∈ (publish_discovery true U D dd pd d0 pubOk).2.2 ∧ pubOk x = true)) ∧
      (publish_discovery true U D dd pd d0 pubOk).2.1 =
        (publish_discovery true U D dd pd d0 pubOk).2.2.filter pubOk) ∧
    (∀ pubOk : String → Bool, (discoveryCandidates U D dd pd).Nodup →
      ∀ x ∈ discoveryCandidates U D dd pd, x ∉ d0 →
        x ∈ (publish_discovery true U D dd pd d0 pubOk).2.2) := by
  simp only [publish_discovery, if_pos trivial]
  refine ⟨⟨?_, ?_, ?_⟩, ?_, ?_⟩
  · rw [discoveryRun_all_discovered (fun _ => true) (discoveryCandidates U D dd pd)
      (discoveryRun (fun _ => true) (discoveryCandidates U D dd pd) d0).1
      fun c hc => (discoveryRun_allOk_set (discoveryCandidates U D dd pd) d0 c).mpr
        (Or.inr hc)]
  · intro x
    exact List.nodup_iff_count_le_one.mp
      (discoveryRun_allOk_pub_nodup (discoveryCandidates U D dd pd) d0) x
  · intro x
    exact discoveryRun_allOk_pub (discoveryCandidates U D dd pd) d0 x
  · intro pubOk
    exact ⟨fun x => discoveryRun_set_iff pubOk (discoveryCandidates U D dd pd) d0 x,
      discoveryRun_pub_filter pubOk (discoveryCandidates U D dd pd) d0⟩
  · intro pubOk hnd x hx hxd
    exact discoveryRun_attempted pubOk (discoveryCandidates U D dd pd) hnd d0 x hx hxd

/-- C4 witness: one device and one plant attribute, all ids fresh; the
failing-oracle run still attempts every candidate, and the all-success run
publishes each id exactly once while the repeat call publishes nothing. -/
theorem publish_discovery_idempotent_witness :
    ("saj_plant_power" ∈
      (publish_discovery true (fun a => if a = "Power" then some "W" else none)
        (fun _ => none) [("d1", ["Alias", "Power"])] ["Power"] []
        (fun _ => false)).2.2) ∧
    ((publish_discovery true (fun a => if a = "Power" then some "W" else none)
        (fun _ => none) [("d1", ["Alias", "Power"])] ["Power"]
        (publish_discovery true (fun a => if a = "Power" then some "W" else none)
          (fun _ => none) [("d1", ["Alias", "Power"])] ["Power"] []
          (fun _ => true)).1 (fun _ => true)).2.1 = []) ∧
    (publish_discovery true (fun a => if a = "Power" then some "W" else none)
        (fun _ => none) [("d1", ["Alias", "Power"])] ["Power"] []
        (fun _ => true)).2.1.count "saj_d1_power" ≤ 1 :=
  ⟨(publish_discovery_idempotent (fun a => if a = "Power" then some "W" else none)
      (fun _ => none) [("d1", ["Alias", "Power"])] ["Power"] []).2.2
      (fun _ => false) (by decide) "saj_plant_power" (by decide) (by decide),
   (publish_discovery_idempotent (fun a => if a = "Power" then some "W" else none)
      (fun _ => none) [("d1", ["Alias", "Power"])] ["Power"] []).1.1,
   (publish_discovery_idempotent (fun a => if a = "Power" then some "W" else none)
      (fun _ => none) [("d1", ["Alias", "Power"])] ["Power"] []).1.2.1
      "saj_d1_power"⟩

/-- The latest-timestamp update as a fold step on the
`(comparison, kept string)` pair. -/
def tsU (cl : Option Nat × Option String) (v : String) : Option Nat × Option String :=
  tsUpdate cl.1 cl.2 v

/-- The truthy values a device reading feeds into the latest-timestamp
tracking of field `attr`, in iteration order. -/
def truthyTsVals (attr : String) (row : List (String × Option String)) : List String :=
  row.filterMap fun p =>
    match p.2 with
    | some s => if p.1 = attr ∧ s ≠ "" then some s else none
    | none => none

/-- The truthy values all devices feed into the latest-timestamp tracking
of field `attr`, in iteration order (absent readings contribute nothing). -/
def plantTsVals (attr : String)
    (fd : List (String × Option (List (String × Option String)))) : List String :=
  fd.foldr (fun p acc =>
    (match p.2 with
     | some r => truthyTsVals attr r
     | none => []) ++ acc) []

/-- The numeric-summing block never touches the four timestamp slots. -/
theorem sumStep_ts (st : AggState) (a : String) (v : Option String) :
    (sumStep st a v).updCmp = st.updCmp ∧ (sumStep st a v).updStr = st.updStr ∧
    (sumStep st a v).srvCmp = st.srvCmp ∧ (sumStep st a v).srvStr = st.srvStr := by
  cases v with
  | none => exact ⟨rfl, rfl, rfl, rfl⟩
  | some s =>
    simp only [sumStep]
    repeat' split
    all_goals exact ⟨rfl, rfl, rfl, rfl⟩

/-- An attribute other than `Update_time` leaves the `Update_time`
tracking slots unchanged. -/
theorem attrStep_upd_other (st : AggState) (a : String) (v : Option String)
    (ha : a ≠ "Update_time") :
    ((attrStep st a v).updCmp, (attrStep st a v).updStr) = (st.updCmp, st.updStr) := by
  obtain ⟨h1, h2, h3, h4⟩ := sumStep_ts st a v
  simp only [attrStep, if_neg ha]
  by_cases hsrv : a = "Server_Time"
  · simp only [if_pos hsrv]
    cases v with
    | none => simp [h1, h2]
    | some s =>
      by_cases hs : s = ""
      · subst hs
        simp [h1, h2]
      · simp [hs, h1, h2]
  · simp only [if_neg hsrv, h1, h2]

/-- The `Update_time` attribute updates the `Update_time` tracking slots
through `tsUpdate` exactly when its value is truthy. -/
theorem attrStep_upd_match (st : AggState) (v : Option String) :
    ((attrStep st "Update_time" v).updCmp, (attrStep st "Update_time" v).updStr) =
      (match v with
       | some s => if s = "" then (st.updCmp, st.updStr) else tsUpdate st.updCmp st.updStr s
       | none => (st.updCmp, st.updStr)) := by
  obtain ⟨h1, h2, h3, h4⟩ := sumStep_ts st "Update_time" v
  simp only [attrStep, if_pos rfl]
  cases v with
  | none => simp [h1, h2]
  | some s =>
    by_cases hs : s = ""
    · subst hs
      simp [h1, h2]
    · simp [hs, h1, h2]

/-- An attribute other than `Server_Time` leaves the `Server_Time`
tracking slots unchanged. -/
theorem attrStep_srv_other (st : AggState) (a : String) (v : Option String)
    (ha : a ≠ "Server_Time") :
    ((attrStep st a v).srvCmp, (attrStep st a v).srvStr) = (st.srvCmp, st.srvStr) := by
  obtain ⟨h1, h2, h3, h4⟩ := sumStep_ts st a v
  simp only [attrStep]
  by_cases hupd : a = "Update_time"
  · simp only [if_pos hupd]
    cases v with
    | none => simp [h3, h4]
    | some s =>
      by_cases hs : s = ""
      · subst hs
        simp [h3, h4]
      · simp [hs, h3, h4]
  · simp only [if_neg hupd, if_neg ha, h3, h4]

/-- The `Server_Time` attribute updates the `Server_Time` tracking slots
through `tsUpdate` exactly when its value is truthy. -/
theorem attrStep_srv_match (st : AggState) (v : Option String) :
    ((attrStep st "Server_Time" v).srvCmp, (attrStep st "Server_Time" v).srvStr) =
      (match v with
       | some s => if s = "" then (st.srvCmp, st.srvStr) else tsUpdate st.srvCmp st.srvStr s
       | none => (st.srvCmp, st.srvStr)) := by
  obtain ⟨h1, h2, h3, h4⟩ := sumStep_ts st "Server_Time" v
  have hne : ("Server_Time" : String) ≠ "Update_time" := by decide
  simp only [attrStep, if_neg hne, if_pos rfl]
  cases v with
  | none => simp [h3, h4]
  | some s =>
    by_cases hs : s = ""
    · subst hs
      simp [h3, h4]
    · simp [hs, h3, h4]

/-- Folding a device reading moves the `Update_time` tracking pair by
folding `tsU` over the reading's truthy `Update_time` values. -/
theorem row_fold_upd (row : List (String × Option String)) :
    ∀ st : AggState,
      ((row.foldl (fun s p => attrStep s p.1 p.2) st).updCmp,
       (row.foldl (fun s p => attrStep s p.1 p.2) st).updStr) =
      (truthyTsVals "Update_time" row).foldl tsU (st.updCmp, st.updStr) := by
  induction row with
  | nil => intro st; rfl
  | cons p r ih =>
    intro st
    obtain ⟨a, v⟩ := p
    rw [List.foldl_cons]
    rw [ih (attrStep st a v)]
    by_cases ha : a = "Update_time"
    · subst ha
      rw [attrStep_upd_match st v]
      cases v with
      | none => simp [truthyTsVals, List.filterMap_cons]
      | some s =>
        by_cases hs : s = ""
        · subst hs
          simp [truthyTsVals, List.filterMap_cons]
        · simp [truthyTsVals, List.filterMap_cons, hs, tsU]
    · rw [attrStep_upd_other st a v ha]
      cases v with
      | none => simp [truthyTsVals, List.filterMap_cons]
      | some s => simp [truthyTsVals, List.filterMap_cons, ha]

/-- Folding a device reading moves the `Server_Time` tracking pair by
folding `tsU` over the reading's truthy `Server_Time` values. -/
theorem row_fold_srv (row : List (String × Option String)) :
    ∀ st : AggState,
      ((row.foldl (fun s p => attrStep s p.1 p.2) st).srvCmp,
       (row.foldl (fun s p => attrStep s p.1 p.2) st).srvStr) =
      (truthyTsVals "Server_Time" row).foldl tsU (st.srvCmp, st.srvStr) := by
  induction row with
  | nil => intro st; rfl
  | cons p r ih =>
    intro st
    obtain ⟨a, v⟩ := p
    rw [List.foldl_cons]
    rw [ih (attrStep st a v)]
    by_cases ha : a = "Server_Time"
    · subst ha
      rw [attrStep_srv_match st v]
      cases v with
      | none => simp [truthyTsVals, List.filterMap_cons]
      | some s =>
        by_cases hs : s = ""
        · subst hs
          simp [truthyTsVals, List.filterMap_cons]
        · simp [truthyTsVals, List.filterMap_cons, hs, tsU]
    · rw [attrStep_srv_other st a v ha]
      cases v with
      | none => simp [truthyTsVals, List.filterMap_cons]
      | some s => simp [truthyTsVals, List.filterMap_cons, ha]

/-- Folding all devices moves the `Update_time` tracking pair by folding
`tsU` over all truthy `Update_time` values. -/
theorem fd_fold_upd (fd : List (String × Option (List (String × Option String)))) :
    ∀ st : AggState,
      ((fd.foldl (fun s p => deviceStep s p.2) st).updCmp,
       (fd.foldl (fun s p => deviceStep s p.2) st).updStr) =
      (plantTsVals "Update_time" fd).foldl tsU (st.updCmp, st.updStr) := by
  induction fd with
  | nil => intro st; rfl
  | cons p l ih =>
    intro st
    obtain ⟨sn, row⟩ := p
    rw [List.foldl_cons]
    rw [ih (deviceStep st row)]
    cases row with
    | none => rfl
    | some r =>
      show _ = (truthyTsVals "Update_time" r ++ plantTsVals "Update_time" l).foldl tsU _
      rw [List.foldl_append]
      rw [show deviceStep st (some r) = r.foldl (fun s p => attrStep s p.1 p.2) st from rfl]
      rw [row_fold_upd r st]

/-- Folding all devices moves the `Server_Time` tracking pair by folding
`tsU` over all truthy `Server_Time` values. -/
theorem fd_fold_srv (fd : List (String × Option (List (String × Option String)))) :
    ∀ st : AggState,
      ((fd.foldl (fun s p => deviceStep s p.2) st).srvCmp,
       (fd.foldl (fun s p => deviceStep s p.2) st).srvStr) =
      (plantTsVals "Server_Time" fd).foldl tsU (st.srvCmp, st.srvStr) := by
  induction fd with
  | nil => intro st; rfl
  | cons p l ih =>
    intro st
    obtain ⟨sn, row⟩ := p
    rw [List.foldl_cons]
    rw [ih (deviceStep st row)]
    cases row with
    | none => rfl
    | some r =>
      show _ = (truthyTsVals "Server_Time" r ++ plantTsVals "Server_Time" l).foldl tsU _
      rw [List.foldl_append]
      rw [show deviceStep st (some r) = r.foldl (fun s p => attrStep s p.1 p.2) st from rfl]
      rw [row_fold_srv r st]

/-- If no value parses, the tracking pair ends with an empty comparison
slot and the FIRST value seen as the kept string (later unparseable
values never overwrite it). -/
theorem tsU_fold_none (vs : List String) (h : ∀ v ∈ vs, parseTs v = none) :
    vs.foldl tsU (none, none) = (none, vs.head?) := by
  induction vs using List.reverseRecOn with
  | nil => rfl
  | append_singleton p v ih =>
    rw [List.foldl_append]
    rw [ih fun u hu => h u (by simp [hu])]
    have hv : parseTs v = none := h v (by simp)
    simp only [List.foldl_cons, List.foldl_nil]
    cases p with
    | nil => simp [tsU, tsUpdate, hv]
    | cons a q => simp [tsU, tsUpdate, hv]

/-- If at least one value parses, the tracking pair ends holding one of
the values whose parse is maximal among all parsed values, together with
its parse. -/
theorem tsU_fold_max (vs : List String) :
    ∀ v0 ∈ vs, ∀ k0, parseTs v0 = some k0 →
      ∃ w kw, w ∈ vs ∧ parseTs w = some kw ∧
        vs.foldl tsU (none, none) = (some kw, some w) ∧
        ∀ u ∈ vs, ∀ j, parseTs u = some j → j ≤ kw := by
  induction vs using List.reverseRecOn with
  | nil => intro v0 hv0; cases hv0
  | append_singleton p v ih =>
    intro v0 hv0 k0 hk0
    by_cases hp : ∀ u ∈ p, parseTs u = none
    · have hv0v : v0 = v := by
        rcases List.mem_append.mp hv0 with h | h
        · rw [hp v0 h] at hk0
          cases hk0
        · simpa using h
      subst hv0v
      rw [List.foldl_append, tsU_fold_none p hp]
      simp only [List.foldl_cons, List.foldl_nil]
      refine ⟨v0, k0, by simp, hk0, ?_, ?_⟩
      · simp [tsU, tsUpdate, hk0]
      · intro u hu j hj
        rcases List.mem_append.mp hu with h | h
        · rw [hp u h] at hj
          cases hj
        · simp only [List.mem_singleton] at h
          subst h
          rw [hk0] at hj
          exact (Option.some_inj.mp hj).symm.le
    · push_neg at hp
      obtain ⟨u0, hu0mem, hu0⟩ := hp
      obtain ⟨j0, hj0⟩ := Option.ne_none_iff_exists'.mp hu0
      obtain ⟨w, kw, hwmem, hwparse, hfold, hbound⟩ := ih u0 hu0mem j0 hj0
      rw [List.foldl_append, hfold]
      simp only [List.foldl_cons, List.foldl_nil]
      cases hv : parseTs v with
      | none =>
        refine ⟨w, kw, by simp [hwmem], hwparse, ?_, ?_⟩
        · simp [tsU, tsUpdate, hv]
        · intro u hu j hj
          rcases List.mem_append.mp hu with h | h
          · exact hbound u h j hj
          · simp only [List.mem_singleton] at h
            subst h
            rw [hv] at hj
            cases hj
      | some k =>
        by_cases hgt : kw < k
        · refine ⟨v, k, by simp, hv, ?_, ?_⟩
          · simp [tsU, tsUpdate, hv, hgt]
          · intro u hu j hj
            rcases List.mem_append.mp hu with h | h
            · exact (hbound u h j hj).trans hgt.le
            · simp only [List.mem_singleton] at h
              subst h
              rw [hv] at hj
              exact (Option.some_inj.mp hj).symm.le
        · refine ⟨w, kw, by simp [hwmem], hwparse, ?_, ?_⟩
          · simp [tsU, tsUpdate, hv, hgt]
          · intro u hu j hj
            rcases List.mem_append.mp hu with h | h
            · exact hbound u h j hj
            · simp only [List.mem_singleton] at h
              subst h
              rw [hv] at hj
              rw [← Option.some_inj.mp hj]
              exact not_lt.mp hgt

/-- The `Update_time` entry of the rendered summary carries the kept
`Update_time` string. -/
theorem mem_aggRender_upd (st : AggState) :
    ("Update_time", AggValue.ts st.updStr) ∈ aggRender st := by
  simp [aggRender]

/-- The `Server_Time` entry of the rendered summary carries the kept
`Server_Time` string. -/
theorem mem_aggRender_srv (st : AggState) :
    ("Server_Time", AggValue.ts st.srvStr) ∈ aggRender st := by
  simp [aggRender]

/-- C5: for `Update_time` and `Server_Time`, `aggregate_plant_data` keeps
the value whose parse under `"%Y-%m-%dT%H:%M:%SZ"` is maximal across all
devices; if every value fails to parse, it keeps the first truthy raw
string seen, which later unparseable strings never overwrite.  The second
conjunct is the spec's concrete instance: of two devices reporting
`Update_time` 10:00 and 12:00, the later value is kept. -/
theorem aggregate_latest_timestamp :
    (∀ (fd : List (String × Option (List (String × Option String)))), fd ≠ [] →
      ∀ attr, attr = "Update_time" ∨ attr = "Server_Time" →
        ((∃ v ∈ plantTsVals attr fd, parseTs v ≠ none) →
          ∃ w kw, w ∈ plantTsVals attr fd ∧ parseTs w = some kw ∧
            (attr, AggValue.ts (some w)) ∈ aggregate_plant_data (some fd) ∧
            ∀ u ∈ plantTsVals attr fd, ∀ j, parseTs u = some j → j ≤ kw) ∧
        ((∀ v ∈ plantTsVals attr fd, parseTs v = none) →
          (attr, AggValue.ts (plantTsVals attr fd).head?) ∈
            aggregate_plant_data (some fd))) ∧
    ("Update_time", AggValue.ts (some "2024-01-01T12:00:00Z")) ∈
      aggregate_plant_data
        (some [("sn1", some [("Update_time", some "2024-01-01T10:00:00Z")]),
               ("sn2", some [("Update_time", some "2024-01-01T12:00:00Z")])]) := by
  constructor
  · intro fd hne attr hattr
    obtain ⟨p, l, rfl⟩ : ∃ p l, fd = p :: l := by
      cases fd with
      | nil => exact absurd rfl hne
      | cons p l => exact ⟨p, l, rfl⟩
    have hagg : aggregate_plant_data (some (p :: l)) =
        aggRender ((p :: l).foldl (fun st q => deviceStep st q.2) initAgg) := rfl
    rcases hattr with rfl | rfl
    · have hpair : ((List.foldl (fun s p => deviceStep s p.2) initAgg (p :: l)).updCmp,
          (List.foldl (fun s p => deviceStep s p.2) initAgg (p :: l)).updStr) =
          List.foldl tsU (none, none) (plantTsVals "Update_time" (p :: l)) :=
        fd_fold_upd (p :: l) initAgg
      constructor
      · rintro ⟨v, hvmem, hvparse⟩
        obtain ⟨k, hk⟩ := Option.ne_none_iff_exists'.mp hvparse
        obtain ⟨w, kw, hw, hwp, hfold, hbound⟩ :=
          tsU_fold_max (plantTsVals "Update_time" (p :: l)) v hvmem k hk
        refine ⟨w, kw, hw, hwp, ?_, hbound⟩
        rw [hfold] at hpair
        have hstr : ((p :: l).foldl (fun st q => deviceStep st q.2) initAgg).updStr =
            some w := congrArg Prod.snd hpair
        rw [hagg, ← hstr]
        exact mem_aggRender_upd _
      · intro hall
        rw [tsU_fold_none _ hall] at hpair
        have hstr : ((p :: l).foldl (fun st q => deviceStep st q.2) initAgg).updStr =
            (plantTsVals "Update_time" (p :: l)).head? := congrArg Prod.snd hpair
        rw [hagg, ← hstr]
        exact mem_aggRender_upd _
    · have hpair : ((List.foldl (fun s p => deviceStep s p.2) initAgg (p :: l)).srvCmp,
          (List.foldl (fun s p => deviceStep s p.2) initAgg (p :: l)).srvStr) =
          List.foldl tsU (none, none) (plantTsVals "Server_Time" (p :: l)) :=
        fd_fold_srv (p :: l) initAgg
      constructor
      · rintro ⟨v, hvmem, hvparse⟩
        obtain ⟨k, hk⟩ := Option.ne_none_iff_exists'.mp hvparse
        obtain ⟨w, kw, hw, hwp, hfold, hbound⟩ :=
          tsU_fold_max (plantTsVals "Server_Time" (p :: l)) v hvmem k hk
        refine ⟨w, kw, hw, hwp, ?_, hbound⟩
        rw [hfold] at hpair
        have hstr : ((p :: l).foldl (fun st q => deviceStep st q.2) initAgg).srvStr =
            some w := congrArg Prod.snd hpair
        rw [hagg, ← hstr]
        exact mem_aggRender_srv _
      · intro hall
        rw [tsU_fold_none _ hall] at hpair
        have hstr : ((p :: l).foldl (fun st q => deviceStep st q.2) initAgg).srvStr =
            (plantTsVals "Server_Time" (p :: l)).head? := congrArg Prod.snd hpair
        rw [hagg, ← hstr]
        exact mem_aggRender_srv _
  · decide

/-- C5 witness: the parse-failure fallback at a concrete input — a single
unparseable `Server_Time` string is kept as-is. -/
theorem aggregate_latest_timestamp_witness :
    ("Server_Time", AggValue.ts (some "not-a-timestamp")) ∈
      aggregate_plant_data
        (some [("d", some [("Server_Time", some "not-a-timestamp")])]) := by
  have h := (aggregate_latest_timestamp.1
      [("d", some [("Server_Time", some "not-a-timestamp")])] (by decide)
      "Server_Time" (Or.inr rfl)).2 (by decide)
  have hh : (plantTsVals "Server_Time"
      [("d", some [("Server_Time", some "not-a-timestamp")])]).head? =
      some "not-a-timestamp" := by decide
  rwa [hh] at h
